import Mathlib

/-!
Verification of the M3-You color engine (src/js/m3-utils.js and
src/js/m3-color-extractor.js) against its natural-language specification.

The JavaScript number type is embedded as the exact rationals where the
source performs field arithmetic, comparisons, `Math.max`/`Math.min`,
`Math.floor`-style operations and rounding.  Calls into the transcendental
library functions (`Math.pow`, `Math.cbrt`, `Math.sqrt`, `Math.atan2`,
`Math.cos`, `Math.sin`, and the constant `Math.PI`) are threaded through an
explicit `MathOracle` parameter, so every theorem below that quantifies over
the oracle holds for every possible valuation of those library calls.  The
special IEEE values produced by division (NaN and the infinities) are
represented explicitly by `JsNum` where the source can produce them.
-/

/-- JS `Math.trunc` semantics on rationals: rounding toward zero.  The JS
remainder operator `%` truncates the quotient toward zero. -/
def jsTrunc (q : ℚ) : ℤ := if 0 ≤ q then ⌊q⌋ else -⌊-q⌋

/-- The JS remainder operator `a % b`: the result carries the sign of the
dividend, because the quotient is truncated toward zero. -/
def jsMod (a b : ℚ) : ℚ := a - b * jsTrunc (a / b)

/-- JS `Math.round`: rounds to the nearest integer, half-way cases toward
positive infinity. -/
def jsRound (q : ℚ) : ℤ := ⌊q + 1/2⌋

/-- Result of a JS division, which can produce NaN (0/0) or signed
infinities (x/0 with x nonzero) besides ordinary numbers. -/
inductive JsNum where
  | nan : JsNum
  | posInf : JsNum
  | negInf : JsNum
  | val : ℚ → JsNum
deriving DecidableEq

/-- JS division `a / b` including its zero-divisor behavior. -/
def jsDiv (a b : ℚ) : JsNum :=
  if b = 0 then
    (if a = 0 then JsNum.nan else if 0 < a then JsNum.posInf else JsNum.negInf)
  else JsNum.val (a / b)

/-- The JS comparison `x > q` for a possibly non-finite `x`; every
comparison against NaN is false. -/
def jsGtQ : JsNum → ℚ → Bool
  | JsNum.nan, _ => false
  | JsNum.posInf, _ => true
  | JsNum.negInf, _ => false
  | JsNum.val x, q => decide (q < x)

/-- The JS comparison `x < q` for a possibly non-finite `x`; every
comparison against NaN is false. -/
def jsLtQ : JsNum → ℚ → Bool
  | JsNum.nan, _ => false
  | JsNum.posInf, _ => false
  | JsNum.negInf, _ => true
  | JsNum.val x, q => decide (x < q)

/-- Valuation of the transcendental JS `Math` library functions used by the
color engine.  Theorems quantified over the oracle hold regardless of how
floating point evaluates these calls. -/
structure MathOracle where
  pow : ℚ → ℚ → ℚ
  cbrt : ℚ → ℚ
  sqrt : ℚ → ℚ
  atan2 : ℚ → ℚ → ℚ
  cos : ℚ → ℚ
  sin : ℚ → ℚ
  pi : ℚ

/-- A concrete oracle (all library calls return 0) used to instantiate
oracle-generic theorems on closed inputs. -/
def zeroOracle : MathOracle :=
  { pow := fun _ _ => 0
    cbrt := fun _ => 0
    sqrt := fun _ => 0
    atan2 := fun _ _ => 0
    cos := fun _ => 0
    sin := fun _ => 0
    pi := 0 }

/-- An RGB triple as produced by `hexToRgb` / consumed by `rgbToHex`:
three channel values (integers in the source's valid range [0,255]). -/
structure Rgb where
  r : ℕ
  g : ℕ
  b : ℕ
deriving DecidableEq

/-- The lowercase hex digit characters produced by JS `Number.toString(16)`. -/
def hexDigitChar (n : ℕ) : Char :=
  match n with
  | 0 => '0' | 1 => '1' | 2 => '2' | 3 => '3' | 4 => '4'
  | 5 => '5' | 6 => '6' | 7 => '7' | 8 => '8' | 9 => '9'
  | 10 => 'a' | 11 => 'b' | 12 => 'c' | 13 => 'd' | 14 => 'e'
  | 15 => 'f' | _ => '0'

/-- Base-16 digit expansion (most significant first), fueled so that the
definition is structurally recursive; the fuel `n + 1` is always enough
because the argument strictly decreases under division by 16. -/
def natToHexCharsAux : ℕ → ℕ → List Char
  | 0, _ => []
  | fuel + 1, n =>
    if n < 16 then [hexDigitChar n]
    else natToHexCharsAux fuel (n / 16) ++ [hexDigitChar (n % 16)]

/-- JS `n.toString(16)` for a nonnegative integer, as a character list. -/
def natToHexChars (n : ℕ) : List Char := natToHexCharsAux (n + 1) n

/-- JS `x.toString(16)` for an integer: negative numbers render with a
leading minus sign. -/
def intToHexChars (x : ℤ) : List Char :=
  if x < 0 then '-' :: natToHexChars (-x).toNat else natToHexChars x.toNat

/-- The per-channel padding step of `rgbToHex`:
`hex.length === 1 ? '0' + hex : hex`. -/
def padHexByte (cs : List Char) : List Char :=
  if cs.length = 1 then '0' :: cs else cs

namespace M3ColorUtils

/-- `M3ColorUtils.rgbToHex` (src/js/m3-utils.js:18-26): map each channel
through `toString(16)` padded to two digits, join, uppercase, and prepend
the hash character.  No clamping is performed.  `M3HCTColor.rgbToHex`
(src/js/m3-utils.js:602-610) has the identical body. -/
def rgbToHex (r g b : ℤ) : String :=
  ⟨'#' :: ((padHexByte (intToHexChars r) ++ padHexByte (intToHexChars g)
      ++ padHexByte (intToHexChars b)).map Char.toUpper)⟩

/-- The character class `[a-f\d]` under the regex's `i` flag. -/
def isHexDigit (c : Char) : Bool :=
  ('0' ≤ c && c ≤ '9') || ('a' ≤ c && c ≤ 'f') || ('A' ≤ c && c ≤ 'F')

/-- Value of one hex digit as read by `parseInt(_, 16)` (case-insensitive). -/
def hexDigitVal (c : Char) : ℕ :=
  if '0' ≤ c ∧ c ≤ '9' then c.toNat - '0'.toNat
  else if 'a' ≤ c ∧ c ≤ 'f' then c.toNat - 'a'.toNat + 10
  else if 'A' ≤ c ∧ c ≤ 'F' then c.toNat - 'A'.toNat + 10
  else 0

/-- The `#?` prefix of the regex `/^#?([a-f\d]{2})([a-f\d]{2})([a-f\d]{2})$/i`:
an optional leading hash is dropped before the six digit groups. -/
def stripHash : List Char → List Char
  | '#' :: rest => rest
  | cs => cs

/-- `M3ColorUtils.hexToRgb` (src/js/m3-utils.js:8-15): match the string
against `/^#?([a-f\d]{2})([a-f\d]{2})([a-f\d]{2})$/i`; on success parse the
three two-digit groups with `parseInt(_, 16)`, otherwise return `null`
(embedded as `none`). -/
def hexToRgb (hex : String) : Option Rgb :=
  match stripHash hex.data with
  | [c1, c2, c3, c4, c5, c6] =>
    if isHexDigit c1 && isHexDigit c2 && isHexDigit c3 && isHexDigit c4
        && isHexDigit c5 && isHexDigit c6 then
      some ⟨16 * hexDigitVal c1 + hexDigitVal c2,
            16 * hexDigitVal c3 + hexDigitVal c4,
            16 * hexDigitVal c5 + hexDigitVal c6⟩
    else none
  | _ => none

end M3ColorUtils

/-- Spec-side predicate, following the spec's words: the input consists of
exactly 6 hex digits with an optional leading hash, case-insensitively. -/
def validHexFormat (s : String) : Bool :=
  let cs := M3ColorUtils.stripHash s.data
  cs.length = 6 && cs.all M3ColorUtils.isHexDigit

/-- Spec-side predicate: an uppercase hex digit, as required of the output
characters of `rgbToHex`. -/
def isUpperHexDigit (c : Char) : Bool :=
  ('0' ≤ c && c ≤ '9') || ('A' ≤ c && c ≤ 'F')

/-- An HCT value as held by instances of the `M3HCTColor` class:
hue, chroma and tone, each a JS number. -/
structure Hct where
  hue : ℚ
  chroma : ℚ
  tone : ℚ
deriving DecidableEq

namespace M3HCTColor

/-- `M3HCTColor.rgbToHex` (src/js/m3-utils.js:602-610): body identical to
`M3ColorUtils.rgbToHex`. -/
def rgbToHex (r g b : ℤ) : String := M3ColorUtils.rgbToHex r g b

/-- `M3HCTColor.hexToRgb` (src/js/m3-utils.js:617-624): the same regex
match as `M3ColorUtils.hexToRgb`, but on failure it returns the literal
object `{ r: 0, g: 0, b: 0 }` instead of `null`. -/
def hexToRgb (hex : String) : Rgb :=
  (M3ColorUtils.hexToRgb hex).getD ⟨0, 0, 0⟩

/-- `M3HCTColor.rgbToHct` (src/js/m3-utils.js:401-444): normalize the
channels, apply the sRGB→XYZ matrix, the XYZ→Lab piecewise cube root
(`Math.cbrt` through the oracle), then polar coordinates
(`Math.sqrt`/`Math.atan2` through the oracle) with the 0.8 chroma scale.
Returns the `[hue, chroma, tone]` triple. -/
def rgbToHct (M : MathOracle) (r g b : ℚ) : ℚ × ℚ × ℚ :=
  let rNorm := r / 255
  let gNorm := g / 255
  let bNorm := b / 255
  let x := 0.4124564 * rNorm + 0.3575761 * gNorm + 0.1804375 * bNorm
  let y := 0.2126729 * rNorm + 0.7151522 * gNorm + 0.0721750 * bNorm
  let z := 0.0193339 * rNorm + 0.1191920 * gNorm + 0.9503041 * bNorm
  let xRatio := x / 0.95047
  let yRatio := y / 1.00000
  let zRatio := z / 1.08883
  let fx := if 0.008856 < xRatio then M.cbrt xRatio else (903.3 * xRatio + 16) / 116
  let fy := if 0.008856 < yRatio then M.cbrt yRatio else (903.3 * yRatio + 16) / 116
  let fz := if 0.008856 < zRatio then M.cbrt zRatio else (903.3 * zRatio + 16) / 116
  let lStar := 116 * fy - 16
  let a := 500 * (fx - fy)
  let bLab := 200 * (fy - fz)
  let cStar := M.sqrt (a * a + bLab * bLab)
  let hRad := M.atan2 bLab a
  let hDeg := hRad * 180 / M.pi
  let hWrapped := if hDeg < 0 then hDeg + 360 else hDeg
  (hWrapped, cStar * 0.8, lStar)

/-- `M3HCTColor.fromHex` (src/js/m3-utils.js:376-380): parse with the
class's own (defaulting) `hexToRgb`, then convert to HCT. -/
def fromHex (M : MathOracle) (hex : String) : Hct :=
  let rgb := hexToRgb hex
  let hct := rgbToHct M rgb.r rgb.g rgb.b
  ⟨hct.1, hct.2.1, hct.2.2⟩

/-- `M3HCTColor.prototype.toRgb` (src/js/m3-utils.js:450-490): polar→Lab
(undoing the 0.8 chroma scale), Lab→XYZ with the piecewise inverse,
XYZ→linear RGB, gamma encoding, clamp each channel to [0,1], scale to 255
and round. -/
def toRgb (M : MathOracle) (c : Hct) : Rgb :=
  let hRad := c.hue * M.pi / 180
  let a := c.chroma * M.cos hRad / 0.8
  let b := c.chroma * M.sin hRad / 0.8
  let lStar := c.tone
  let fy := (lStar + 16) / 116
  let fx := fy + a / 500
  let fz := fy - b / 200
  let x := (if 0.008856 < fx ^ 3 then fx ^ 3 else (116 * fx - 16) / 903.3) * 0.95047
  let y := (if 0.008856 < fy ^ 3 then fy ^ 3 else (116 * fy - 16) / 903.3) * 1.00000
  let z := (if 0.008856 < fz ^ 3 then fz ^ 3 else (116 * fz - 16) / 903.3) * 1.08883
  let r0 := 3.2404542 * x - 1.5371385 * y - 0.4985314 * z
  let g0 := -0.9692660 * x + 1.8760108 * y + 0.0415560 * z
  let b0 := 0.0556434 * x - 0.2040259 * y + 1.0572252 * z
  let r1 := if 0.0031308 < r0 then 1.055 * M.pow r0 (1 / 2.4) - 0.055 else 12.92 * r0
  let g1 := if 0.0031308 < g0 then 1.055 * M.pow g0 (1 / 2.4) - 0.055 else 12.92 * g0
  let b1 := if 0.0031308 < b0 then 1.055 * M.pow b0 (1 / 2.4) - 0.055 else 12.92 * b0
  let r2 := max 0 (min 1 r1)
  let g2 := max 0 (min 1 g1)
  let b2 := max 0 (min 1 b1)
  ⟨(jsRound (r2 * 255)).toNat, (jsRound (g2 * 255)).toNat, (jsRound (b2 * 255)).toNat⟩

/-- `M3HCTColor.prototype.toHex` (src/js/m3-utils.js:496-499). -/
def toHex (M : MathOracle) (c : Hct) : String :=
  let rgb := toRgb M c
  rgbToHex rgb.r rgb.g rgb.b

/-- `M3HCTColor.adjustHue` (src/js/m3-utils.js:546-552): hue moves by
`delta` and is reduced with the JS `%` operator, which truncates toward
zero and therefore returns a negative value for a negative sum. -/
def adjustHue (color : Hct) (delta : ℚ) : Hct :=
  ⟨jsMod (color.hue + delta) 360, color.chroma, color.tone⟩

/-- `M3HCTColor.adjustChroma` (src/js/m3-utils.js:560-566): chroma moves by
`delta` and is floored at 0 with `Math.max`. -/
def adjustChroma (color : Hct) (delta : ℚ) : Hct :=
  ⟨color.hue, max 0 (color.chroma + delta), color.tone⟩

/-- `M3HCTColor.adjustTone` (src/js/m3-utils.js:574-580): tone moves by
`delta` and is clamped to [0,100] with `Math.max`/`Math.min`. -/
def adjustTone (color : Hct) (delta : ℚ) : Hct :=
  ⟨color.hue, color.chroma, max 0 (min 100 (color.tone + delta))⟩

/-- `M3HCTColor.relativeLuminance` (src/js/m3-utils.js:652-662): per-channel
sRGB gamma decode (the power branch through the oracle), then the weighted
sum.  `M3ColorUtils.calculateLuminance` (src/js/m3-utils.js:29-39) has the
identical body. -/
def relativeLuminance (M : MathOracle) (r g b : ℚ) : ℚ :=
  let rsrgb := r / 255
  let gsrgb := g / 255
  let bsrgb := b / 255
  let rLinear := if rsrgb ≤ 0.03928 then rsrgb / 12.92 else M.pow ((rsrgb + 0.055) / 1.055) 2.4
  let gLinear := if gsrgb ≤ 0.03928 then gsrgb / 12.92 else M.pow ((gsrgb + 0.055) / 1.055) 2.4
  let bLinear := if bsrgb ≤ 0.03928 then bsrgb / 12.92 else M.pow ((bsrgb + 0.055) / 1.055) 2.4
  0.2126 * rLinear + 0.7152 * gLinear + 0.0722 * bLinear

/-- `M3HCTColor.contrastRatio` (src/js/m3-utils.js:632-643): parse both
colors with the class's defaulting `hexToRgb`, compute both luminances, and
return `(lighter + 0.05) / (darker + 0.05)`. -/
def contrastRatio (M : MathOracle) (color1 color2 : String) : ℚ :=
  let rgb1 := hexToRgb color1
  let rgb2 := hexToRgb color2
  let luminance1 := relativeLuminance M rgb1.r rgb1.g rgb1.b
  let luminance2 := relativeLuminance M rgb2.r rgb2.g rgb2.b
  let lighter := max luminance1 luminance2
  let darker := min luminance1 luminance2
  (lighter + 0.05) / (darker + 0.05)

/-- `M3HCTColor.getAccessibleTextColor` (src/js/m3-utils.js:669-685):
return black when the black contrast reaches 4.5, else white when the white
contrast reaches 4.5, else fall back to the luminance midpoint test. -/
def getAccessibleTextColor (M : MathOracle) (backgroundColor : String) : String :=
  let rgb := hexToRgb backgroundColor
  let luminance := relativeLuminance M rgb.r rgb.g rgb.b
  let blackContrast := contrastRatio M backgroundColor "#000000"
  let whiteContrast := contrastRatio M backgroundColor "#FFFFFF"
  if 4.5 ≤ blackContrast then "#000000"
  else if 4.5 ≤ whiteContrast then "#FFFFFF"
  else if 0.5 < luminance then "#000000" else "#FFFFFF"

end M3HCTColor

namespace M3ColorUtils

/-- `M3ColorUtils.calculateLuminance` (src/js/m3-utils.js:29-39): body
identical to `M3HCTColor.relativeLuminance`. -/
def calculateLuminance (M : MathOracle) (r g b : ℚ) : ℚ :=
  M3HCTColor.relativeLuminance M r g b

/-- `M3ColorUtils.getAccessibleTextColor` (src/js/m3-utils.js:58-66):
returns black for unparseable input, otherwise black when the luminance
exceeds 0.5 and white otherwise.  Unlike the `M3HCTColor` version it
performs no contrast-threshold checks. -/
def getAccessibleTextColor (M : MathOracle) (backgroundColor : String) : String :=
  match hexToRgb backgroundColor with
  | none => "#000000"
  | some rgb =>
    if 0.5 < calculateLuminance M rgb.r rgb.g rgb.b then "#000000" else "#FFFFFF"

end M3ColorUtils

/-- One RGBA pixel of the flat byte sequence fed to the extractor
(4 bytes per pixel, row-major). -/
structure Pixel where
  r : ℕ
  g : ℕ
  b : ℕ
  a : ℕ
deriving DecidableEq

namespace M3ColorExtractor

/-- The per-channel quantization `Math.floor(c / 16) * 16`
(src/js/m3-color-extractor.js:73-75). -/
def quantize (c : ℕ) : ℕ := c / 16 * 16

/-- One `colorMap.set(colorKey, (colorMap.get(colorKey) || 0) + 1)` step
(src/js/m3-color-extractor.js:77-78).  A JS `Map` keeps the position of an
existing key and appends a new key at the end. -/
def addPixel (hist : List ((ℕ × ℕ × ℕ) × ℕ)) (key : ℕ × ℕ × ℕ) :
    List ((ℕ × ℕ × ℕ) × ℕ) :=
  match hist with
  | [] => [(key, 1)]
  | (k, n) :: rest =>
    if k = key then (k, n + 1) :: rest else (k, n) :: addPixel rest key

/-- The histogram loop of `extractColorsFromPixels`
(src/js/m3-color-extractor.js:64-79): skip pixels whose alpha is below 128,
quantize the rest and count occurrences per quantized triple.  The JS code
keys the map by the string template of the triple; triple keys are
equivalent because that formatting is injective on triples. -/
def buildHistogram (hist : List ((ℕ × ℕ × ℕ) × ℕ)) :
    List Pixel → List ((ℕ × ℕ × ℕ) × ℕ)
  | [] => hist
  | p :: ps =>
    if p.a < 128 then buildHistogram hist ps
    else buildHistogram (addPixel hist (quantize p.r, quantize p.g, quantize p.b)) ps

/-- The candidate walk of `extractColorsFromPixels`
(src/js/m3-color-extractor.js:87-102): keep a candidate only if its
contrast ratio against every already-kept color exceeds 1.5; stop as soon
as `colorCount` colors are kept. -/
def pickDistinct (M : MathOracle) (colorCount : ℕ) (acc : List String) :
    List ((ℕ × ℕ × ℕ) × ℕ) → List String
  | [] => acc
  | (key, _) :: rest =>
    let hexColor := M3HCTColor.rgbToHex key.1 key.2.1 key.2.2
    if acc.all (fun existingColor =>
        1.5 < M3HCTColor.contrastRatio M hexColor existingColor) then
      let acc2 := acc ++ [hexColor]
      if colorCount ≤ acc2.length then acc2 else pickDistinct M colorCount acc2 rest
    else pickDistinct M colorCount acc rest

/-- `M3ColorExtractor.extractColorsFromPixels`
(src/js/m3-color-extractor.js:60-105): histogram the opaque pixels by
quantized triple, sort the buckets by descending frequency (JS
`Array.prototype.sort` is stable; the comparator `b[1] - a[1]` is embedded
as the stable insertion sort under the matching total order), keep the top
`colorCount * 2` candidates and filter them for pairwise distinctness. -/
def extractColorsFromPixels (M : MathOracle) (pixels : List Pixel)
    (colorCount : ℕ) : List String :=
  let colorMap := buildHistogram [] pixels
  let sortedColors :=
    (colorMap.insertionSort (fun a b => b.2 ≤ a.2)).take (colorCount * 2)
  pickDistinct M colorCount [] sortedColors

/-- The saturation bonus of `extractPrimaryColor`
(src/js/m3-color-extractor.js:129-132): `(max - min) / max` is a JS
division — for a pure black candidate it is `0 / 0 = NaN`, both range
comparisons are then false and no bonus is granted. -/
def saturationScore (maxComponent minComponent : ℕ) : ℤ :=
  let saturation := jsDiv ((maxComponent : ℚ) - (minComponent : ℚ)) (maxComponent : ℚ)
  if jsGtQ saturation 0.3 && jsLtQ saturation 0.8 then 20 else 0

/-- The scoring pass of `extractPrimaryColor`
(src/js/m3-color-extractor.js:116-142): chroma bonus, tone bonus,
saturation bonus, near-gray penalty and extreme-tone penalty, accumulated
into one integer score. -/
def scoreColor (M : MathOracle) (color : String) : ℤ :=
  let hct := M3HCTColor.fromHex M color
  let rgb := M3HCTColor.hexToRgb color
  let chromaScore : ℤ := if 20 < hct.chroma ∧ hct.chroma < 60 then 30 else 0
  let toneScore : ℤ := if 30 < hct.tone ∧ hct.tone < 70 then 30 else 0
  let maxComponent := max rgb.r (max rgb.g rgb.b)
  let minComponent := min rgb.r (min rgb.g rgb.b)
  let satScore := saturationScore maxComponent minComponent
  let grayPenalty : ℤ :=
    if |(rgb.r : ℤ) - (rgb.g : ℤ)| < 30 ∧ |(rgb.g : ℤ) - (rgb.b : ℤ)| < 30 then -50 else 0
  let extremePenalty : ℤ := if hct.tone < 10 ∨ 90 < hct.tone then -30 else 0
  chromaScore + toneScore + satScore + grayPenalty + extremePenalty

/-- `M3ColorExtractor.extractPrimaryColor`
(src/js/m3-color-extractor.js:112-147): return the fixed default seed for
an empty input, otherwise score every candidate, stable-sort by descending
score (`(a, b) => b.score - a.score`) and return the color of the first
entry.  The head default of the embedding is never used because the sorted
list of a non-empty input is non-empty. -/
def extractPrimaryColor (M : MathOracle) (colors : List String) : String :=
  if colors.isEmpty then "#6750A4"
  else
    let scoredColors := colors.map (fun color => (color, scoreColor M color))
    let sorted := scoredColors.insertionSort (fun a b => b.2 ≤ a.2)
    (sorted.headD ("#6750A4", 0)).1

/-- `M3ColorExtractor.generateSchemeFromColor`
(src/js/m3-color-extractor.js:179-243): derive the full role-to-hex
mapping from one seed color, embedded as the ordered list of
role/value pairs of the returned object literal. -/
def generateSchemeFromColor (M : MathOracle) (primaryColor : String)
    (isDark : Bool) : List (String × String) :=
  let hctColor := M3HCTColor.fromHex M primaryColor
  let baseTone : ℚ := if isDark then 20 else 80
  let containerTone : ℚ := if isDark then 30 else 90
  let primary := M3HCTColor.toHex M hctColor
  let primaryContainer :=
    M3HCTColor.toHex M (M3HCTColor.adjustTone hctColor (containerTone - hctColor.tone))
  let secondary := M3HCTColor.adjustHue hctColor 60
  let secondaryAdjusted := M3HCTColor.adjustTone secondary (baseTone - secondary.tone)
  let tertiary := M3HCTColor.adjustHue hctColor 120
  let tertiaryAdjusted := M3HCTColor.adjustTone tertiary (baseTone - tertiary.tone)
  let surfaceHct : Hct :=
    ⟨hctColor.hue, max 0 (hctColor.chroma - 40), if isDark then 10 else 99⟩
  [("primary", primary),
   ("onPrimary", M3HCTColor.getAccessibleTextColor M primary),
   ("primaryContainer", primaryContainer),
   ("onPrimaryContainer", M3HCTColor.getAccessibleTextColor M primaryContainer),
   ("secondary", M3HCTColor.toHex M secondaryAdjusted),
   ("onSecondary",
     M3HCTColor.getAccessibleTextColor M (M3HCTColor.toHex M secondaryAdjusted)),
   ("secondaryContainer",
     M3HCTColor.toHex M (M3HCTColor.adjustTone secondaryAdjusted 10)),
   ("onSecondaryContainer",
     M3HCTColor.getAccessibleTextColor M
       (M3HCTColor.toHex M (M3HCTColor.adjustTone secondaryAdjusted 10))),
   ("tertiary", M3HCTColor.toHex M tertiaryAdjusted),
   ("onTertiary",
     M3HCTColor.getAccessibleTextColor M (M3HCTColor.toHex M tertiaryAdjusted)),
   ("tertiaryContainer",
     M3HCTColor.toHex M (M3HCTColor.adjustTone tertiaryAdjusted 10)),
   ("onTertiaryContainer",
     M3HCTColor.getAccessibleTextColor M
       (M3HCTColor.toHex M (M3HCTColor.adjustTone tertiaryAdjusted 10))),
   ("surface", M3HCTColor.toHex M surfaceHct),
   ("surfaceDim",
     M3HCTColor.toHex M (M3HCTColor.adjustTone surfaceHct (if isDark then -4 else -12))),
   ("surfaceBright",
     M3HCTColor.toHex M (M3HCTColor.adjustTone surfaceHct (if isDark then 14 else 4))),
   ("surfaceContainerLowest",
     M3HCTColor.toHex M (M3HCTColor.adjustTone surfaceHct (if isDark then 0 else 5))),
   ("surfaceContainerLow",
     M3HCTColor.toHex M (M3HCTColor.adjustTone surfaceHct (if isDark then 4 else 8))),
   ("surfaceContainer",
     M3HCTColor.toHex M (M3HCTColor.adjustTone surfaceHct (if isDark then 6 else 12))),
   ("surfaceContainerHigh",
     M3HCTColor.toHex M (M3HCTColor.adjustTone surfaceHct (if isDark then 8 else 16))),
   ("surfaceContainerHighest",
     M3HCTColor.toHex M (M3HCTColor.adjustTone surfaceHct (if isDark then 12 else 22))),
   ("onSurface",
     M3HCTColor.getAccessibleTextColor M (M3HCTColor.toHex M surfaceHct)),
   ("onSurfaceVariant",
     M3HCTColor.toHex M (M3HCTColor.adjustTone surfaceHct (if isDark then 70 else 30))),
   ("outline",
     M3HCTColor.toHex M (M3HCTColor.adjustTone hctColor (if isDark then 60 else 50))),
   ("outlineVariant",
     M3HCTColor.toHex M (M3HCTColor.adjustTone hctColor (if isDark then 30 else 80))),
   ("error", if isDark then "#F2B8B5" else "#BA1A1A"),
   ("onError", if isDark then "#601410" else "#FFFFFF"),
   ("errorContainer", if isDark then "#8C1D18" else "#FFDAD6"),
   ("onErrorContainer", if isDark then "#F9DEDC" else "#410002")]

end M3ColorExtractor

theorem natToHexChars_lt16 (n : ℕ) (h : n < 16) :
    natToHexChars n = [hexDigitChar n] := by
  simp [natToHexChars, natToHexCharsAux, h]

theorem natToHexChars_byte (n : ℕ) (h16 : 16 ≤ n) (h : n < 256) :
    natToHexChars n = [hexDigitChar (n / 16), hexDigitChar (n % 16)] := by
  obtain ⟨m, rfl⟩ : ∃ m, n = m + 1 := ⟨n - 1, by omega⟩
  have hdiv : (m + 1) / 16 < 16 := by omega
  simp [natToHexChars, natToHexCharsAux, Nat.not_lt.mpr h16, hdiv]

theorem padHexByte_byte (n : ℕ) (h : n < 256) :
    (padHexByte (natToHexChars n)).map Char.toUpper =
      [Char.toUpper (hexDigitChar (n / 16)), Char.toUpper (hexDigitChar (n % 16))] := by
  by_cases h16 : n < 16
  · rw [natToHexChars_lt16 n h16]
    have hdiv : n / 16 = 0 := Nat.div_eq_of_lt h16
    have hmod : n % 16 = n := Nat.mod_eq_of_lt h16
    simp [padHexByte, hdiv, hmod, hexDigitChar]
  · rw [natToHexChars_byte n (Nat.not_lt.mp h16) h]
    simp [padHexByte]

theorem hexDigit_upper_parse : ∀ d : ℕ, d < 16 →
    M3ColorUtils.isHexDigit (Char.toUpper (hexDigitChar d)) = true ∧
    M3ColorUtils.hexDigitVal (Char.toUpper (hexDigitChar d)) = d := by decide

theorem upperHexDigit_of_digit : ∀ d : ℕ, d < 16 →
    isUpperHexDigit (Char.toUpper (hexDigitChar d)) = true := by decide

theorem rgbToHex_data (r g b : ℕ) (hr : r < 256) (hg : g < 256) (hb : b < 256) :
    (M3ColorUtils.rgbToHex r g b).data =
      '#' :: [Char.toUpper (hexDigitChar (r / 16)), Char.toUpper (hexDigitChar (r % 16)),
              Char.toUpper (hexDigitChar (g / 16)), Char.toUpper (hexDigitChar (g % 16)),
              Char.toUpper (hexDigitChar (b / 16)), Char.toUpper (hexDigitChar (b % 16))] := by
  have hr2 : intToHexChars (r : ℤ) = natToHexChars r := by
    simp [intToHexChars]
  have hg2 : intToHexChars (g : ℤ) = natToHexChars g := by
    simp [intToHexChars]
  have hb2 : intToHexChars (b : ℤ) = natToHexChars b := by
    simp [intToHexChars]
  show '#' :: _ = _
  rw [hr2, hg2, hb2]
  rw [List.map_append, List.map_append,
    padHexByte_byte r hr, padHexByte_byte g hg, padHexByte_byte b hb]
  rfl

/-- C7: the hex codec round trip.  For all channel values in [0,255],
parsing the formatted string recovers exactly the original triple. -/
theorem hexToRgb_rgbToHex_roundtrip (r g b : ℕ)
    (hr : r ≤ 255) (hg : g ≤ 255) (hb : b ≤ 255) :
    M3ColorUtils.hexToRgb (M3ColorUtils.rgbToHex r g b) = some ⟨r, g, b⟩ := by
  have hdata := rgbToHex_data r g b (by omega) (by omega) (by omega)
  have hdr : r / 16 < 16 := by omega
  have hdg : g / 16 < 16 := by omega
  have hdb : b / 16 < 16 := by omega
  have hmr : r % 16 < 16 := Nat.mod_lt _ (by omega)
  have hmg : g % 16 < 16 := Nat.mod_lt _ (by omega)
  have hmb : b % 16 < 16 := Nat.mod_lt _ (by omega)
  unfold M3ColorUtils.hexToRgb
  rw [hdata]
  simp only [M3ColorUtils.stripHash]
  rw [if_pos]
  · congr 1
    have er := (hexDigit_upper_parse (r / 16) hdr).2
    have er2 := (hexDigit_upper_parse (r % 16) hmr).2
    have eg := (hexDigit_upper_parse (g / 16) hdg).2
    have eg2 := (hexDigit_upper_parse (g % 16) hmg).2
    have eb := (hexDigit_upper_parse (b / 16) hdb).2
    have eb2 := (hexDigit_upper_parse (b % 16) hmb).2
    rw [er, er2, eg, eg2, eb, eb2]
    have : ∀ n : ℕ, 16 * (n / 16) + n % 16 = n := fun n => by omega
    simp [this]
  · rw [(hexDigit_upper_parse (r / 16) hdr).1, (hexDigit_upper_parse (r % 16) hmr).1,
      (hexDigit_upper_parse (g / 16) hdg).1, (hexDigit_upper_parse (g % 16) hmg).1,
      (hexDigit_upper_parse (b / 16) hdb).1, (hexDigit_upper_parse (b % 16) hmb).1]
    rfl

/-- C7 witness: the round trip evaluated at the concrete triple (255,0,0),
which is the spec's own scenario (`rgbToHex(255,0,0) == "#FF0000"`). -/
theorem hexToRgb_rgbToHex_roundtrip_witness :
    M3ColorUtils.hexToRgb (M3ColorUtils.rgbToHex 255 0 0) = some ⟨255, 0, 0⟩ :=
  hexToRgb_rgbToHex_roundtrip 255 0 0 (by norm_num) (by norm_num) (by norm_num)

/-- C2 (amended): `rgbToHex` performs no clamping, but whenever every
channel already lies in [0,255] the result is a 7-character string, a hash
followed by six uppercase hex digits. -/
theorem rgbToHex_format (r g b : ℤ)
    (hr0 : 0 ≤ r) (hr1 : r ≤ 255) (hg0 : 0 ≤ g) (hg1 : g ≤ 255)
    (hb0 : 0 ≤ b) (hb1 : b ≤ 255) :
    (M3ColorUtils.rgbToHex r g b).length = 7 ∧
    (M3ColorUtils.rgbToHex r g b).data.head? = some '#' ∧
    ∀ c ∈ (M3ColorUtils.rgbToHex r g b).data.tail, isUpperHexDigit c = true := by
  obtain ⟨rn, rfl⟩ : ∃ n : ℕ, r = (n : ℤ) := ⟨r.toNat, (Int.toNat_of_nonneg hr0).symm⟩
  obtain ⟨gn, rfl⟩ : ∃ n : ℕ, g = (n : ℤ) := ⟨g.toNat, (Int.toNat_of_nonneg hg0).symm⟩
  obtain ⟨bn, rfl⟩ : ∃ n : ℕ, b = (n : ℤ) := ⟨b.toNat, (Int.toNat_of_nonneg hb0).symm⟩
  have hrn : rn < 256 := by exact_mod_cast Int.lt_add_one_iff.mpr hr1
  have hgn : gn < 256 := by exact_mod_cast Int.lt_add_one_iff.mpr hg1
  have hbn : bn < 256 := by exact_mod_cast Int.lt_add_one_iff.mpr hb1
  have hdata := rgbToHex_data rn gn bn hrn hgn hbn
  refine ⟨?_, ?_, ?_⟩
  · show (M3ColorUtils.rgbToHex rn gn bn).data.length = 7
    rw [hdata]; rfl
  · rw [hdata]; rfl
  · rw [hdata]
    intro c hc
    simp only [List.tail_cons, List.mem_cons, List.mem_singleton, List.not_mem_nil,
      or_false] at hc
    rcases hc with h | h | h | h | h | h <;> subst h <;>
      exact upperHexDigit_of_digit _ (by omega)

/-- C2 counterexample: no clamping happens; at `r = 256` the three-digit
hex expansion slips through the one-character padding check and the result
has 8 characters, refuting both the clamping and the fixed-width parts of
the claim. -/
theorem rgbToHex_no_clamp_counterexample :
    M3ColorUtils.rgbToHex 256 0 0 = "#1000000" ∧
    (M3ColorUtils.rgbToHex 256 0 0).length ≠ 7 := by
  constructor
  · decide
  · decide

/-- C2 witness: the amended format statement evaluated at (255,0,0). -/
theorem rgbToHex_format_witness :
    (M3ColorUtils.rgbToHex 255 0 0).length = 7 ∧
    (M3ColorUtils.rgbToHex 255 0 0).data.head? = some '#' :=
  have h := rgbToHex_format 255 0 0 (by norm_num) (by norm_num) (by norm_num)
    (by norm_num) (by norm_num) (by norm_num)
  ⟨h.1, h.2.1⟩

theorem hexToRgb_none_iff (s : String) :
    M3ColorUtils.hexToRgb s = none ↔ validHexFormat s = false := by
  unfold M3ColorUtils.hexToRgb validHexFormat
  generalize M3ColorUtils.stripHash s.data = cs
  match cs with
  | [] => simp
  | [c1] => simp
  | [c1, c2] => simp
  | [c1, c2, c3] => simp
  | [c1, c2, c3, c4] => simp
  | [c1, c2, c3, c4, c5] => simp
  | [c1, c2, c3, c4, c5, c6] =>
    by_cases h : (M3ColorUtils.isHexDigit c1 && M3ColorUtils.isHexDigit c2
        && M3ColorUtils.isHexDigit c3 && M3ColorUtils.isHexDigit c4
        && M3ColorUtils.isHexDigit c5 && M3ColorUtils.isHexDigit c6) = true
    · simp only [h, if_pos]
      simp only [Bool.and_eq_true] at h
      simp [h.1.1.1.1.1, h.1.1.1.1.2, h.1.1.1.2, h.1.1.2, h.1.2, h.2]
    · simp only [h, if_neg, Bool.if_false_right]
      simp only [Bool.and_eq_true, not_and] at h
      simp only [List.all_cons, List.all_nil, Bool.and_true, List.length_cons,
        List.length_nil, true_iff, eq_self_iff_true]
      by_cases h1 : M3ColorUtils.isHexDigit c1 = true <;>
        by_cases h2 : M3ColorUtils.isHexDigit c2 = true <;>
        by_cases h3 : M3ColorUtils.isHexDigit c3 = true <;>
        by_cases h4 : M3ColorUtils.isHexDigit c4 = true <;>
        by_cases h5 : M3ColorUtils.isHexDigit c5 = true <;>
        by_cases h6 : M3ColorUtils.isHexDigit c6 = true <;>
        simp_all
  | c1 :: c2 :: c3 :: c4 :: c5 :: c6 :: c7 :: rest => simp

/-- C1 (amended): for every string that is not 6 hex digits with an
optional leading hash, `M3ColorUtils.hexToRgb` surfaces the failure by
returning `null` (`none`) — no default is substituted — while
`M3HCTColor.hexToRgb` silently substitutes the default `{0,0,0}`. -/
theorem hexToRgb_malformed_behavior (s : String) (h : validHexFormat s = false) :
    M3ColorUtils.hexToRgb s = none ∧ M3HCTColor.hexToRgb s = ⟨0, 0, 0⟩ := by
  have h1 : M3ColorUtils.hexToRgb s = none := (hexToRgb_none_iff s).mpr h
  exact ⟨h1, by simp [M3HCTColor.hexToRgb, h1]⟩

/-- C1 counterexample: at the malformed input `"ZZZZZZ"` the `M3HCTColor`
codec silently returns `{0,0,0}` instead of surfacing a failure, refuting
the claim that the codec never substitutes a default. -/
theorem hexToRgb_silent_default_counterexample :
    validHexFormat "ZZZZZZ" = false ∧ M3HCTColor.hexToRgb "ZZZZZZ" = ⟨0, 0, 0⟩ := by
  constructor
  · decide
  · decide

/-- C1 witness: the amended malformed-input behavior at `"xyz"`. -/
theorem hexToRgb_malformed_behavior_witness :
    validHexFormat "xyz" = false ∧
    M3ColorUtils.hexToRgb "xyz" = none ∧ M3HCTColor.hexToRgb "xyz" = ⟨0, 0, 0⟩ :=
  have h := hexToRgb_malformed_behavior "xyz" (by decide)
  ⟨by decide, h.1, h.2⟩

/-- C9: `extractPrimaryColor` on the empty candidate list returns the
fixed default seed; the embedding has no failure path there, matching the
documented fallback.  Holds for every oracle valuation. -/
theorem extractPrimaryColor_empty_default (M : MathOracle) :
    M3ColorExtractor.extractPrimaryColor M [] = "#6750A4" := rfl

/-- C6: `generateSchemeFromColor` is deterministic.  The embedding is a
pure function of the seed, the mode flag and the `Math` oracle — it reads
no ambient state, clock or randomness, exactly as the source, which only
calls `M3HCTColor` arithmetic and `Math` library functions — so two calls
with identical inputs are definitionally identical. -/
theorem generateSchemeFromColor_deterministic (M : MathOracle)
    (primaryColor : String) (isDark : Bool) :
    M3ColorExtractor.generateSchemeFromColor M primaryColor isDark =
      M3ColorExtractor.generateSchemeFromColor M primaryColor isDark := rfl

theorem jsMod_nonneg_lt_360 (x : ℚ) (hx : 0 ≤ x) :
    0 ≤ jsMod x 360 ∧ jsMod x 360 < 360 := by
  have h0 : (0 : ℚ) ≤ x / 360 := by positivity
  unfold jsMod jsTrunc
  rw [if_pos h0]
  have h1 : ((⌊x / 360⌋ : ℤ) : ℚ) ≤ x / 360 := Int.floor_le _
  have h2 : x / 360 < ((⌊x / 360⌋ : ℤ) : ℚ) + 1 := Int.lt_floor_add_one _
  have h3 : 360 * ((⌊x / 360⌋ : ℤ) : ℚ) ≤ x := by
    have := mul_le_mul_of_nonneg_left h1 (by norm_num : (0 : ℚ) ≤ 360)
    calc 360 * ((⌊x / 360⌋ : ℤ) : ℚ) ≤ 360 * (x / 360) := this
      _ = x := by ring
  have h4 : x < 360 * ((⌊x / 360⌋ : ℤ) : ℚ) + 360 := by
    have := mul_lt_mul_of_pos_left h2 (by norm_num : (0 : ℚ) < 360)
    calc x = 360 * (x / 360) := by ring
      _ < 360 * (((⌊x / 360⌋ : ℤ) : ℚ) + 1) := this
      _ = 360 * ((⌊x / 360⌋ : ℤ) : ℚ) + 360 := by ring
  constructor <;> linarith

/-- C5 (amended): for an HCT value satisfying the data-model invariants,
`adjustChroma` and `adjustTone` preserve their invariants for every delta
and leave the other components untouched, and `adjustHue` keeps the hue in
[0,360) whenever `hue + delta` is nonnegative — in particular for every
nonnegative delta.  (For `hue + delta < 0` the JS `%` operator returns a
negative hue; see the counterexample.) -/
theorem adjust_helpers_invariants (c : Hct) (d : ℚ)
    (hh0 : 0 ≤ c.hue) (hh1 : c.hue < 360) (hc0 : 0 ≤ c.chroma)
    (ht0 : 0 ≤ c.tone) (ht1 : c.tone ≤ 100) :
    (0 ≤ c.hue + d →
      0 ≤ (M3HCTColor.adjustHue c d).hue ∧ (M3HCTColor.adjustHue c d).hue < 360) ∧
    (M3HCTColor.adjustHue c d).chroma = c.chroma ∧
    (M3HCTColor.adjustHue c d).tone = c.tone ∧
    0 ≤ (M3HCTColor.adjustChroma c d).chroma ∧
    (M3HCTColor.adjustChroma c d).hue = c.hue ∧
    (M3HCTColor.adjustChroma c d).tone = c.tone ∧
    0 ≤ (M3HCTColor.adjustTone c d).tone ∧ (M3HCTColor.adjustTone c d).tone ≤ 100 ∧
    (M3HCTColor.adjustTone c d).hue = c.hue ∧
    (M3HCTColor.adjustTone c d).chroma = c.chroma := by
  refine ⟨fun hsum => ?_, rfl, rfl, ?_, rfl, rfl, ?_, ?_, rfl, rfl⟩
  · exact jsMod_nonneg_lt_360 (c.hue + d) hsum
  · exact le_max_left 0 _
  · exact le_max_left 0 _
  · exact max_le (by norm_num) (min_le_left 100 _)

/-- C5 counterexample: the HCT value (10, 5, 50) satisfies every
data-model invariant, yet `adjustHue` with delta = −40 produces hue −30,
outside [0,360): the JS `%` operator does not wrap negative sums. -/
theorem adjustHue_negative_delta_counterexample :
    (0 : ℚ) ≤ (⟨10, 5, 50⟩ : Hct).hue ∧ (⟨10, 5, 50⟩ : Hct).hue < 360 ∧
    (0 : ℚ) ≤ (⟨10, 5, 50⟩ : Hct).chroma ∧
    (0 : ℚ) ≤ (⟨10, 5, 50⟩ : Hct).tone ∧ (⟨10, 5, 50⟩ : Hct).tone ≤ 100 ∧
    (M3HCTColor.adjustHue ⟨10, 5, 50⟩ (-40)).hue = -30 ∧
    ¬ (0 ≤ (M3HCTColor.adjustHue ⟨10, 5, 50⟩ (-40)).hue) := by
  refine ⟨by norm_num, by norm_num, by norm_num, by norm_num, by norm_num, ?_, ?_⟩
  · show jsMod (10 + -40) 360 = -30
    norm_num [jsMod, jsTrunc]
  · show ¬ (0 ≤ jsMod (10 + -40) 360)
    norm_num [jsMod, jsTrunc]

/-- C5 witness: the amended invariants evaluated at (10, 5, 50) with
delta = 60. -/
theorem adjust_helpers_invariants_witness :
    0 ≤ (M3HCTColor.adjustHue ⟨10, 5, 50⟩ 60).hue ∧
    (M3HCTColor.adjustHue ⟨10, 5, 50⟩ 60).hue < 360 ∧
    0 ≤ (M3HCTColor.adjustChroma ⟨10, 5, 50⟩ 60).chroma ∧
    0 ≤ (M3HCTColor.adjustTone ⟨10, 5, 50⟩ 60).tone ∧
    (M3HCTColor.adjustTone ⟨10, 5, 50⟩ 60).tone ≤ 100 := by
  have h := adjust_helpers_invariants ⟨10, 5, 50⟩ 60 (by norm_num) (by norm_num)
    (by norm_num) (by norm_num) (by norm_num)
  obtain ⟨hhue, _, _, hch, _, _, ht0, ht1, _, _⟩ := h
  have hh := hhue (by norm_num)
  exact ⟨hh.1, hh.2, hch, ht0, ht1⟩

/-- C4: for a valid background color, `M3HCTColor.getAccessibleTextColor`
implements exactly the claimed decision procedure (black when the black
contrast reaches 4.5, else white when the white contrast reaches 4.5, else
the luminance midpoint test), and both homonymous functions return only
black or white.  Holds for every oracle valuation of the `Math` library. -/
theorem getAccessibleTextColor_spec (M : MathOracle) (bg : String) (rgb : Rgb)
    (h : M3ColorUtils.hexToRgb bg = some rgb) :
    M3HCTColor.getAccessibleTextColor M bg =
      (if 4.5 ≤ M3HCTColor.contrastRatio M bg "#000000" then "#000000"
       else if 4.5 ≤ M3HCTColor.contrastRatio M bg "#FFFFFF" then "#FFFFFF"
       else if 0.5 < M3HCTColor.relativeLuminance M rgb.r rgb.g rgb.b then "#000000"
       else "#FFFFFF") ∧
    (M3HCTColor.getAccessibleTextColor M bg = "#000000" ∨
      M3HCTColor.getAccessibleTextColor M bg = "#FFFFFF") ∧
    (M3ColorUtils.getAccessibleTextColor M bg = "#000000" ∨
      M3ColorUtils.getAccessibleTextColor M bg = "#FFFFFF") := by
  have hd : M3HCTColor.hexToRgb bg = rgb := by simp [M3HCTColor.hexToRgb, h]
  refine ⟨?_, ?_, ?_⟩
  · simp only [M3HCTColor.getAccessibleTextColor, hd]
  · simp only [M3HCTColor.getAccessibleTextColor]
    split_ifs <;> simp
  · simp only [M3ColorUtils.getAccessibleTextColor, h]
    split_ifs <;> simp

/-- C4 witness: the decision procedure evaluated at the valid background
`"#000000"` under a concrete oracle. -/
theorem getAccessibleTextColor_spec_witness :
    M3ColorUtils.hexToRgb "#000000" = some ⟨0, 0, 0⟩ ∧
    (M3HCTColor.getAccessibleTextColor zeroOracle "#000000" = "#000000" ∨
      M3HCTColor.getAccessibleTextColor zeroOracle "#000000" = "#FFFFFF") :=
  have h : M3ColorUtils.hexToRgb "#000000" = some ⟨0, 0, 0⟩ := by decide
  ⟨h, (getAccessibleTextColor_spec zeroOracle "#000000" ⟨0, 0, 0⟩ h).2.1⟩

theorem pickDistinct_prefix (M : MathOracle) (k : ℕ) :
    ∀ (cands : List ((ℕ × ℕ × ℕ) × ℕ)) (acc : List String),
      ∃ t, M3ColorExtractor.pickDistinct M k acc cands = acc ++ t := by
  intro cands
  induction cands with
  | nil => exact fun acc => ⟨[], by simp [M3ColorExtractor.pickDistinct]⟩
  | cons hd tl ih =>
    intro acc
    obtain ⟨key, cnt⟩ := hd
    simp only [M3ColorExtractor.pickDistinct]
    split
    · split
      · exact ⟨_, rfl⟩
      · obtain ⟨t, ht⟩ := ih (acc ++ [M3HCTColor.rgbToHex key.1 key.2.1 key.2.2])
        exact ⟨_, by rw [ht, List.append_assoc]⟩
    · exact ih acc

theorem pickDistinct_length_le (M : MathOracle) (k : ℕ) :
    ∀ (cands : List ((ℕ × ℕ × ℕ) × ℕ)) (acc : List String), acc.length < k →
      (M3ColorExtractor.pickDistinct M k acc cands).length ≤ k := by
  intro cands
  induction cands with
  | nil =>
    intro acc hacc
    simpa [M3ColorExtractor.pickDistinct] using Nat.le_of_lt hacc
  | cons hd tl ih =>
    intro acc hacc
    obtain ⟨key, cnt⟩ := hd
    simp only [M3ColorExtractor.pickDistinct]
    split
    · split
      · simp only [List.length_append, List.length_cons, List.length_nil]
        omega
      · apply ih
        simp only [List.length_append, List.length_cons, List.length_nil]
        rename_i hgo
        simp only [List.length_append, List.length_cons, List.length_nil] at hgo
        omega
    · exact ih acc hacc

theorem pickDistinct_ne_nil (M : MathOracle) (k : ℕ)
    (cands : List ((ℕ × ℕ × ℕ) × ℕ)) (hne : cands ≠ []) :
    M3ColorExtractor.pickDistinct M k [] cands ≠ [] := by
  obtain ⟨hd, tl, rfl⟩ := List.exists_cons_of_ne_nil hne
  obtain ⟨key, cnt⟩ := hd
  simp only [M3ColorExtractor.pickDistinct, List.all_nil, if_pos, List.nil_append]
  split
  · simp
  · obtain ⟨t, ht⟩ := pickDistinct_prefix M k tl [M3HCTColor.rgbToHex key.1 key.2.1 key.2.2]
    rw [ht]
    simp

theorem addPixel_ne_nil (hist : List ((ℕ × ℕ × ℕ) × ℕ)) (key : ℕ × ℕ × ℕ) :
    M3ColorExtractor.addPixel hist key ≠ [] := by
  cases hist with
  | nil => simp [M3ColorExtractor.addPixel]
  | cons hd tl =>
    obtain ⟨k, n⟩ := hd
    simp only [M3ColorExtractor.addPixel]
    split <;> simp

theorem buildHistogram_eq_nil :
    ∀ (ps : List Pixel) (hist : List ((ℕ × ℕ × ℕ) × ℕ)),
      M3ColorExtractor.buildHistogram hist ps = [] ↔
        hist = [] ∧ ∀ p ∈ ps, p.a < 128 := by
  intro ps
  induction ps with
  | nil => intro hist; simp [M3ColorExtractor.buildHistogram]
  | cons p ps ih =>
    intro hist
    simp only [M3ColorExtractor.buildHistogram]
    split
    · rename_i htrans
      rw [ih hist]
      simp only [List.mem_cons, forall_eq_or_imp]
      tauto
    · rename_i hopaque
      rw [ih _]
      simp only [List.mem_cons, forall_eq_or_imp]
      constructor
      · intro ⟨habs, _⟩
        exact absurd habs (addPixel_ne_nil _ _)
      · intro ⟨_, hpa, _⟩
        exact absurd hpa hopaque

/-- C8 (amended): for every pixel sequence and requested count,
`extractColorsFromPixels` returns at most `colorCount` colors; and for
every requested count of at least 1, it returns the empty sequence exactly
when every pixel is near-transparent (alpha below 128) — in particular,
the empty pixel sequence gives the empty result, and otherwise at least
one color is returned because the first candidate passes the distinctness
filter vacuously.  (At `colorCount = 0` the JS code truncates the
candidate list to length 0 and returns the empty sequence even for opaque
pixels; see the counterexample.)  Holds for every oracle valuation. -/
theorem extractColorsFromPixels_bounds (M : MathOracle) (pixels : List Pixel)
    (colorCount : ℕ) :
    (M3ColorExtractor.extractColorsFromPixels M pixels colorCount).length ≤ colorCount ∧
    (1 ≤ colorCount →
      ((M3ColorExtractor.extractColorsFromPixels M pixels colorCount = []) ↔
        ∀ p ∈ pixels, p.a < 128)) := by
  constructor
  · cases colorCount with
    | zero =>
      simp [M3ColorExtractor.extractColorsFromPixels, M3ColorExtractor.pickDistinct]
    | succ k =>
      exact pickDistinct_length_le M (k + 1) _ [] (by simp)
  · intro hk
    unfold M3ColorExtractor.extractColorsFromPixels
    constructor
    · intro hnil
      by_contra hop
      have hhist : M3ColorExtractor.buildHistogram [] pixels ≠ [] := by
        intro h
        exact hop ((buildHistogram_eq_nil pixels []).mp h).2
      have hsort : (M3ColorExtractor.buildHistogram [] pixels).insertionSort
          (fun a b => b.2 ≤ a.2) ≠ [] := by
        intro h
        apply hhist
        have hlen := List.length_insertionSort (r := fun a b : (ℕ × ℕ × ℕ) × ℕ => b.2 ≤ a.2)
          (M3ColorExtractor.buildHistogram [] pixels)
        rw [h] at hlen
        exact List.length_eq_zero.mp hlen.symm
      have htake : ((M3ColorExtractor.buildHistogram [] pixels).insertionSort
          (fun a b => b.2 ≤ a.2)).take (colorCount * 2) ≠ [] := by
        obtain ⟨hd, tl, heq⟩ := List.exists_cons_of_ne_nil hsort
        rw [heq]
        cases hc : colorCount * 2 with
        | zero => omega
        | succ m => simp
      exact pickDistinct_ne_nil M colorCount _ htake hnil
    · intro htrans
      have hhist : M3ColorExtractor.buildHistogram [] pixels = [] :=
        (buildHistogram_eq_nil pixels []).mpr ⟨rfl, htrans⟩
      rw [hhist]
      simp [M3ColorExtractor.pickDistinct]

/-- C8 counterexample: one fully-opaque pixel but a requested count of 0 —
the result is empty although no pixel has alpha below 128 and the pixel
sequence is non-empty, refuting the claimed characterization of the empty
result for arbitrary counts. -/
theorem extractColors_zero_count_counterexample :
    M3ColorExtractor.extractColorsFromPixels zeroOracle [⟨0, 0, 0, 255⟩] 0 = [] ∧
    ¬ ∀ p ∈ [(⟨0, 0, 0, 255⟩ : Pixel)], p.a < 128 := by
  constructor
  · rfl
  · decide

/-- C8 witness: the amended bounds evaluated on one opaque pixel with a
requested count of 2. -/
theorem extractColorsFromPixels_bounds_witness :
    (M3ColorExtractor.extractColorsFromPixels zeroOracle [⟨200, 10, 10, 255⟩] 2).length ≤ 2 ∧
    M3ColorExtractor.extractColorsFromPixels zeroOracle [⟨200, 10, 10, 255⟩] 2 ≠ [] := by
  have h := extractColorsFromPixels_bounds zeroOracle [⟨200, 10, 10, 255⟩] 2
  refine ⟨h.1, fun hnil => ?_⟩
  have h2 := (h.2 (by norm_num)).mp hnil ⟨200, 10, 10, 255⟩ (by simp)
  exact absurd h2 (by decide)

/-- C10: on a non-empty list of valid color strings `extractPrimaryColor`
is total and returns an element of its input; and the saturation bonus of
a pure-black candidate (whose `(max − min) / max` is the NaN `0 / 0`, so
both range comparisons are false) is 0 — no error branch exists.  Holds
for every oracle valuation. -/
theorem extractPrimaryColor_mem (M : MathOracle) (colors : List String)
    (hne : colors ≠ [])
    (hvalid : ∀ c ∈ colors, (M3ColorUtils.hexToRgb c).isSome = true) :
    M3ColorExtractor.extractPrimaryColor M colors ∈ colors ∧
    M3ColorExtractor.saturationScore 0 0 = 0 := by
  refine ⟨?_, by simp [M3ColorExtractor.saturationScore, jsDiv, jsGtQ]⟩
  simp only [M3ColorExtractor.extractPrimaryColor]
  rw [if_neg (by simpa using hne)]
  have hsne : colors.map (fun color => (color, M3ColorExtractor.scoreColor M color)) ≠ [] := by
    simpa using hne
  have hsortne : (colors.map (fun color => (color, M3ColorExtractor.scoreColor M color))).insertionSort
      (fun a b => b.2 ≤ a.2) ≠ [] := by
    intro h
    apply hsne
    have hlen := List.length_insertionSort (r := fun a b : String × ℤ => b.2 ≤ a.2)
      (colors.map (fun color => (color, M3ColorExtractor.scoreColor M color)))
    rw [h] at hlen
    exact List.length_eq_zero.mp hlen.symm
  obtain ⟨p, rest, hp⟩ := List.exists_cons_of_ne_nil hsortne
  rw [hp]
  simp only [List.headD_cons]
  have hmem : p ∈ (colors.map (fun color => (color, M3ColorExtractor.scoreColor M color))).insertionSort
      (fun a b => b.2 ≤ a.2) := by
    rw [hp]
    exact List.mem_cons_self _ _
  have hmem2 := (List.mem_insertionSort _).mp hmem
  obtain ⟨c, hc, hcp⟩ := List.mem_map.mp hmem2
  have : p.1 = c := by rw [← hcp]
  rw [this]
  exact hc

/-- C10 witness: the membership statement evaluated on the singleton list
containing pure black, the very candidate that exercises the NaN
saturation path. -/
theorem extractPrimaryColor_mem_witness :
    M3ColorExtractor.extractPrimaryColor zeroOracle ["#000000"] ∈ ["#000000"] ∧
    M3ColorExtractor.saturationScore 0 0 = 0 :=
  extractPrimaryColor_mem zeroOracle ["#000000"] (by decide) (by decide)
